import Mathlib

/-!
Shallow embedding of the vessel motion/route-assignment simulation of the
ocean-sentinel dashboard.  The embedded code is the `updateVesselPositions`
callback of the real-time data hook: a per-tick map over the vessel list that
plans waypoints toward the nearest plastic hotspots, advances each vessel
along a spherical bearing, detects arrival by haversine distance, and updates
trail/accumulator fields.  Numbers are modelled as real numbers; JavaScript
`Math` functions are modelled by their exact real counterparts.
-/

set_option maxRecDepth 8000

namespace OceanSentinel

/-- Degrees-to-radians conversion, the `toRad` helper of the source. -/
noncomputable def toRad (x : ℝ) : ℝ := x * Real.pi / 180

/-- JavaScript `a || b` for a non-NaN number `a`: yields `b` when `a` is `0`
(falsy), else `a`.  Used by the source as `toRad(baseLat) || 1e-6`. -/
noncomputable def jsOr (a b : ℝ) : ℝ := if a = 0 then b else a

/-- JavaScript `Math.atan2 y x` on real (non-NaN) inputs, with the single
real zero playing the role of `+0`. -/
noncomputable def atan2 (y x : ℝ) : ℝ :=
  if 0 < x then Real.arctan (y / x)
  else if x < 0 then
    (if 0 ≤ y then Real.arctan (y / x) + Real.pi else Real.arctan (y / x) - Real.pi)
  else if 0 < y then Real.pi / 2
  else if y < 0 then -(Real.pi / 2)
  else 0

/-- JavaScript `Math.hypot a b`. -/
noncomputable def hypot (a b : ℝ) : ℝ := Real.sqrt (a ^ 2 + b ^ 2)

/-- JavaScript `Math.round`: the nearest integer, halves rounding toward
positive infinity. -/
noncomputable def jsRound (x : ℝ) : ℤ := ⌊x + 1 / 2⌋

/-- A waypoint of a vessel's plan: `{lat, lng, completed}` in the source
(`completed` optional there, absent read as `false`). -/
structure Waypoint where
  lat : ℝ
  lng : ℝ
  completed : Bool

/-- A plastic hotspot.  Only the fields read by `updateVesselPositions` are
kept (`concentration`, `severity`, `area`, timestamps and NASA metadata are
display-only and never consulted by the simulation loop). -/
structure Hotspot where
  id : String
  lat : ℝ
  lng : ℝ

/-- A point of a vessel's route trail; the integrator appends bare
`{lat, lng}` records. -/
structure RoutePoint where
  lat : ℝ
  lng : ℝ

/-- A vessel, after the `Vessel` interface of the source (the `plan` field is
dynamically attached by the integrator, hence optional). -/
structure Vessel where
  id : String
  name : String
  type : String
  status : String
  lat : ℝ
  lng : ℝ
  battery : ℝ
  plasticCollected : ℝ
  speed : ℝ
  route : List RoutePoint
  currentTarget : Option String
  plan : Option (List Waypoint)

/-- A mission; only the fields read by `updateVesselPositions` are kept. -/
structure Mission where
  id : String
  name : String
  status : String
  vessels : List String

/-- The set (as a list, membership is all that is used) of vessel ids that
belong to at least one mission with status `active` — the `activeAssigned`
set of the source. -/
def activeAssigned (missions : List Mission) : List String :=
  (missions.filter fun m => m.status == "active").flatMap fun m => m.vessels

/-- The Navigation Planner: up to three nearest hotspots from the current
position, ranked by `Math.hypot` of the coordinate differences, emitted as
incomplete waypoints — the `nearest` computation of the source. -/
noncomputable def nearestPlan (hotspots : List Hotspot) (clat clng : ℝ) : List Waypoint :=
  ((((hotspots.map fun h => (h, hypot (h.lat - clat) (h.lng - clng))).mergeSort
      fun a b => decide (a.2 ≤ b.2)).take 3).map
    fun x => { lat := x.1.lat, lng := x.1.lng, completed := false })

/-- The `nextPlan` of the source: keep the vessel's plan when it still has an
incomplete waypoint, otherwise regenerate from the nearest hotspots, falling
back to a single degenerate waypoint at the vessel's own position when no
hotspot exists. -/
noncomputable def planFor (hotspots : List Hotspot) (v : Vessel) : List Waypoint :=
  let plan := v.plan.getD []
  if (plan.filter fun p => !p.completed).length = 0 then
    let nearest := nearestPlan hotspots v.lat v.lng
    if 0 < nearest.length then nearest
    else [{ lat := v.lat, lng := v.lng, completed := false }]
  else plan

/-- The scalar step distance in meters for one 5-second tick:
`max(0.1, speed * 0.514444) * 5` in the source. -/
noncomputable def stepMeters (speed : ℝ) : ℝ := max 0.1 (speed * 0.514444) * 5

/-- The forward-azimuth bearing of the source, from the vessel's position to
the target waypoint. -/
noncomputable def bearingTo (baseLat baseLng tLat tLng : ℝ) : ℝ :=
  let dLng := toRad (tLng - baseLng)
  let y := Real.sin dLng * Real.cos (toRad tLat)
  let x := Real.cos (toRad baseLat) * Real.sin (toRad tLat) -
    Real.sin (toRad baseLat) * Real.cos (toRad tLat) * Real.cos dLng
  atan2 y x

/-- The latitude step in degrees: `Math.cos(bearing) * meters * degLatPerMeter`. -/
noncomputable def stepLat (v : Vessel) (t : Waypoint) : ℝ :=
  Real.cos (bearingTo v.lat v.lng t.lat t.lng) * stepMeters v.speed * (1 / 111000)

/-- The longitude step in degrees:
`Math.sin(bearing) * meters * degLngPerMeter` with
`degLngPerMeter = 1 / (111000 * Math.cos(toRad(baseLat) || 1e-6))`. -/
noncomputable def stepLng (v : Vessel) (t : Waypoint) : ℝ :=
  Real.sin (bearingTo v.lat v.lng t.lat t.lng) * stepMeters v.speed *
    (1 / (111000 * Real.cos (jsOr (toRad v.lat) 1e-6)))

/-- The haversine distance in meters (the source's `dKm`, despite the name),
Earth radius 6,371,000 m. -/
noncomputable def haversineM (lat1 lng1 lat2 lng2 : ℝ) : ℝ :=
  let dphi := toRad (lat2 - lat1)
  let dlmb := toRad (lng2 - lng1)
  let a := Real.sin (dphi / 2) ^ 2 +
    Real.cos (toRad lat1) * Real.cos (toRad lat2) * Real.sin (dlmb / 2) ^ 2
  2 * 6371000 * Real.arcsin (min 1 (Real.sqrt a))

/-- In-place completion of the target waypoint: the source mutates the object
found by reference equality, which is the first incomplete waypoint whenever
one exists (and a value-level no-op otherwise). -/
def markFirstIncomplete : List Waypoint → List Waypoint
  | [] => []
  | w :: ws =>
    if w.completed then w :: markFirstIncomplete ws
    else { w with completed := true } :: ws

/-- JavaScript `array.slice(-n)`: the at most `n` most recent elements. -/
def takeLast (n : Nat) (l : List α) : List α := l.drop (l.length - n)

/-- The body of one moved-vessel update, given the already-selected target:
step the position, mark arrival on the plan, extend the trail, update the
accumulators with the two `Math.random()` draws `r1` (plastic) and `r2`
(battery). -/
noncomputable def integrate (hotspots : List Hotspot) (r1 r2 : ℝ) (v : Vessel)
    (target : Waypoint) : Vessel :=
  let nextPlan := planFor hotspots v
  let newLat := v.lat + stepLat v target
  let newLng := v.lng + stepLng v target
  let dKm := haversineM newLat newLng target.lat target.lng
  let markedPlan := if dKm < 5000 then markFirstIncomplete nextPlan else nextPlan
  let nextRoute := takeLast 200 (v.route ++ [{ lat := newLat, lng := newLng }])
  { v with
    lat := newLat
    lng := newLng
    route := nextRoute
    plan := some markedPlan
    plasticCollected := (jsRound ((v.plasticCollected + r1 * 5) * 10) : ℝ) / 10
    battery := max 0 (v.battery - r2 * 0.1) }

/-- One Motion Integrator step for one vessel.  A vessel that is not active
or not assigned to an active mission is returned unchanged.  The target is
`nextPlan.find(p => !p.completed) ?? nextPlan[nextPlan.length - 1]`; were both
to miss (empty `nextPlan`), the source would dereference `undefined`, modelled
as `none`. -/
noncomputable def tickVessel (hotspots : List Hotspot) (assigned : List String)
    (r1 r2 : ℝ) (v : Vessel) : Option Vessel :=
  if v.status = "active" ∧ v.id ∈ assigned then
    match (planFor hotspots v).find? fun p => !p.completed with
    | some target => some (integrate hotspots r1 r2 v target)
    | none =>
      match (planFor hotspots v).getLast? with
      | some target => some (integrate hotspots r1 r2 v target)
      | none => none
  else some v

/-- The Entity Store visible to `updateVesselPositions`: the vessel list it
rewrites and the hotspot and mission lists it reads. -/
structure SimState where
  vessels : List Vessel
  hotspots : List Hotspot
  missions : List Mission

/-- The per-vessel map of the tick, threading an index so that each vessel
gets its own pair of `Math.random()` draws. -/
noncomputable def tickAll (hotspots : List Hotspot) (assigned : List String)
    (rnd : Nat → ℝ × ℝ) : Nat → List Vessel → Option (List Vessel)
  | _, [] => some []
  | i, v :: vs =>
    match tickVessel hotspots assigned (rnd i).1 (rnd i).2 v,
        tickAll hotspots assigned rnd (i + 1) vs with
    | some w, some ws => some (w :: ws)
    | _, _ => none

/-- One full tick of `updateVesselPositions`: computes the active-assigned
set from the missions and maps the integrator over the vessel list; the
hotspot and mission lists are only read. -/
noncomputable def updateVesselPositions (rnd : Nat → ℝ × ℝ) (s : SimState) :
    Option SimState :=
  match tickAll s.hotspots (activeAssigned s.missions) rnd 0 s.vessels with
  | some vs => some { s with vessels := vs }
  | none => none

/-- `n` consecutive ticks, with a fresh per-vessel random source each tick. -/
noncomputable def iterTicks (rnd : Nat → Nat → ℝ × ℝ) : Nat → SimState → Option SimState
  | 0, s => some s
  | n + 1, s =>
    match updateVesselPositions (rnd 0) s with
    | some s' => iterTicks (fun k => rnd (k + 1)) n s'
    | none => none

/-- The total run of one integrator step (defined below to be the unique
vessel the step returns; the step never fails). -/
noncomputable def tickV (hotspots : List Hotspot) (assigned : List String)
    (r1 r2 : ℝ) (v : Vessel) : Vessel :=
  (tickVessel hotspots assigned r1 r2 v).getD v

/-- An index-threading map over the vessel list, the shape of a successful
`tickAll`. -/
noncomputable def mapRnd (f : Nat → Vessel → Vessel) : Nat → List Vessel → List Vessel
  | _, [] => []
  | i, v :: vs => f i v :: mapRnd f (i + 1) vs

/-! ### Concrete seed-shaped data for witnesses and counterexamples -/

/-- A concrete active vessel at the origin with speed 0 and no stored plan. -/
noncomputable def testVessel : Vessel :=
  { id := "vessel-001", name := "Ocean Guardian Alpha", type := "autonomous",
    status := "active", lat := 0, lng := 0, battery := 87, plasticCollected := 1250,
    speed := 0, route := [], currentTarget := none, plan := none }

/-- A concrete active mission referencing `testVessel`. -/
def testMission : Mission :=
  { id := "mission-001", name := "Pacific Garbage Patch Cleanup", status := "active",
    vessels := ["vessel-001"] }

/-- A concrete store with one active assigned vessel and no hotspots. -/
noncomputable def testState : SimState :=
  { vessels := [testVessel], hotspots := [], missions := [testMission] }

/-- A concrete idle vessel (seed `vessel-004` shaped). -/
noncomputable def idleVessel : Vessel :=
  { id := "vessel-004", name := "Deep Blue Delta", type := "ship",
    status := "idle", lat := 34.6, lng := -145.8, battery := 65, plasticCollected := 510,
    speed := 0, route := [], currentTarget := none, plan := none }

/-- A concrete store whose only vessel is idle and unassigned. -/
noncomputable def idleState : SimState :=
  { vessels := [idleVessel], hotspots := [], missions := [testMission] }

/-- A concrete hotspot due east of the origin on the equator. -/
noncomputable def eastHotspot : Hotspot := { id := "h-east", lat := 0, lng := 1 }

/-- A concrete active vessel at the origin with seed speed 12.5 knots. -/
noncomputable def eastVessel : Vessel :=
  { id := "vessel-001", name := "Ocean Guardian Alpha", type := "autonomous",
    status := "active", lat := 0, lng := 0, battery := 87, plasticCollected := 1250,
    speed := 12.5, route := [], currentTarget := none, plan := none }

/-- The concrete vessel with a stored, partly incomplete plan. -/
noncomputable def plannedVessel : Vessel :=
  { testVessel with plan := some [{ lat := 0, lng := 0, completed := false }] }

/-! ### Basic facts about the planner output -/

/-- Every waypoint emitted by the Navigation Planner is incomplete and carries
the coordinates of one of the known hotspots. -/
theorem nearestPlan_mem {hotspots : List Hotspot} {clat clng : ℝ} {w : Waypoint}
    (hw : w ∈ nearestPlan hotspots clat clng) :
    w.completed = false ∧ ∃ h ∈ hotspots, w.lat = h.lat ∧ w.lng = h.lng := by
  unfold nearestPlan at hw
  obtain ⟨x, hx, rfl⟩ := List.mem_map.1 hw
  refine ⟨rfl, ?_⟩
  have hx' := List.mem_of_mem_take hx
  rw [List.mem_mergeSort] at hx'
  obtain ⟨h, hh, rfl⟩ := List.mem_map.1 hx'
  exact ⟨h, hh, rfl, rfl⟩

/-- The planner emits `min 3 (number of hotspots)` waypoints. -/
theorem nearestPlan_length (hotspots : List Hotspot) (clat clng : ℝ) :
    (nearestPlan hotspots clat clng).length = min 3 hotspots.length := by
  unfold nearestPlan
  rw [List.length_map, List.length_take, List.length_mergeSort, List.length_map]

/-- The planner output is sorted by ascending planar distance from the
planning position. -/
theorem nearestPlan_sorted (hotspots : List Hotspot) (clat clng : ℝ) :
    (nearestPlan hotspots clat clng).Pairwise
      (fun a b => hypot (a.lat - clat) (a.lng - clng) ≤ hypot (b.lat - clat) (b.lng - clng)) := by
  unfold nearestPlan
  rw [List.pairwise_map]
  have hsorted :
      (((hotspots.map fun h => (h, hypot (h.lat - clat) (h.lng - clng))).mergeSort
        fun a b => decide (a.2 ≤ b.2)).Pairwise fun a b => decide (a.2 ≤ b.2)) :=
    List.sorted_mergeSort
      (by intro a b c h1 h2; simp only [decide_eq_true_eq] at h1 h2 ⊢; exact le_trans h1 h2)
      (by intro a b; simpa using le_total a.2 b.2) _
  have htake := hsorted.sublist (List.take_sublist 3 _)
  refine htake.imp_of_mem ?_
  intro a b ha hb hab
  have hmem : ∀ x ∈ (((hotspots.map fun h => (h, hypot (h.lat - clat) (h.lng - clng))).mergeSort
      fun a b => decide (a.2 ≤ b.2)).take 3),
      x.2 = hypot (x.1.lat - clat) (x.1.lng - clng) := by
    intro x hx
    have hx' := List.mem_of_mem_take hx
    rw [List.mem_mergeSort] at hx'
    obtain ⟨h, _, rfl⟩ := List.mem_map.1 hx'
    rfl
  have ha2 := hmem a ha
  have hb2 := hmem b hb
  simp only [decide_eq_true_eq] at hab
  rw [ha2, hb2] at hab
  exact hab

/-- The `nextPlan` computed by the tick always contains an incomplete
waypoint (a retained plan has one by the guard; a regenerated plan is
nonempty with all flags `false`). -/
theorem planFor_find?_isSome (hotspots : List Hotspot) (v : Vessel) :
    ∃ t, (planFor hotspots v).find? (fun p => !p.completed) = some t := by
  rw [← Option.isSome_iff_exists, List.find?_isSome]
  unfold planFor
  by_cases hfil : ((v.plan.getD []).filter fun p => !p.completed).length = 0
  · rw [if_pos hfil]
    by_cases hnear : 0 < (nearestPlan hotspots v.lat v.lng).length
    · rw [if_pos hnear]
      obtain ⟨w, hw⟩ := List.exists_mem_of_ne_nil _ (List.length_pos.1 hnear)
      exact ⟨w, hw, by simp [(nearestPlan_mem hw).1]⟩
    · rw [if_neg hnear]
      exact ⟨_, List.mem_singleton.2 rfl, rfl⟩
  · rw [if_neg hfil]
    have hne : (v.plan.getD []).filter (fun p => !p.completed) ≠ [] := by
      intro h; exact hfil (by rw [h]; rfl)
    obtain ⟨w, hw⟩ := List.exists_mem_of_ne_nil _ hne
    obtain ⟨hmem, hp⟩ := List.mem_filter.1 hw
    exact ⟨w, hmem, hp⟩

/-! ### Characterizations of one integrator step -/

/-- A vessel that is active and assigned is integrated toward the first
incomplete waypoint of its plan. -/
theorem tick_moved {hotspots : List Hotspot} {assigned : List String} {r1 r2 : ℝ}
    {v : Vessel} {t : Waypoint} (hst : v.status = "active") (hmem : v.id ∈ assigned)
    (hfind : (planFor hotspots v).find? (fun p => !p.completed) = some t) :
    tickVessel hotspots assigned r1 r2 v = some (integrate hotspots r1 r2 v t) := by
  unfold tickVessel
  rw [if_pos ⟨hst, hmem⟩, hfind]

/-- A vessel that is not active, or not assigned to an active mission, is
returned unchanged by the integrator. -/
theorem tick_skip {hotspots : List Hotspot} {assigned : List String} {r1 r2 : ℝ}
    {v : Vessel} (h : ¬(v.status = "active" ∧ v.id ∈ assigned)) :
    tickVessel hotspots assigned r1 r2 v = some v := by
  unfold tickVessel
  rw [if_neg h]

/-- The integrator never fails: the dead `undefined`-target branch is
unreachable. -/
theorem tick_isSome (hotspots : List Hotspot) (assigned : List String) (r1 r2 : ℝ)
    (v : Vessel) : ∃ w, tickVessel hotspots assigned r1 r2 v = some w := by
  by_cases h : v.status = "active" ∧ v.id ∈ assigned
  · obtain ⟨t, ht⟩ := planFor_find?_isSome hotspots v
    exact ⟨_, tick_moved h.1 h.2 ht⟩
  · exact ⟨v, tick_skip h⟩

theorem tickVessel_eq_tickV (hotspots : List Hotspot) (assigned : List String)
    (r1 r2 : ℝ) (v : Vessel) :
    tickVessel hotspots assigned r1 r2 v = some (tickV hotspots assigned r1 r2 v) := by
  obtain ⟨w, hw⟩ := tick_isSome hotspots assigned r1 r2 v
  rw [tickV, hw]
  rfl

theorem tickV_moved {hotspots : List Hotspot} {assigned : List String} {r1 r2 : ℝ}
    {v : Vessel} {t : Waypoint} (hst : v.status = "active") (hmem : v.id ∈ assigned)
    (hfind : (planFor hotspots v).find? (fun p => !p.completed) = some t) :
    tickV hotspots assigned r1 r2 v = integrate hotspots r1 r2 v t := by
  rw [tickV, tick_moved hst hmem hfind]
  rfl

theorem tickV_skip {hotspots : List Hotspot} {assigned : List String} {r1 r2 : ℝ}
    {v : Vessel} (h : ¬(v.status = "active" ∧ v.id ∈ assigned)) :
    tickV hotspots assigned r1 r2 v = v := by
  rw [tickV, tick_skip h]
  rfl

/-! ### Field-level description of one moved-vessel update -/

theorem integrate_lat (hotspots : List Hotspot) (r1 r2 : ℝ) (v : Vessel) (t : Waypoint) :
    (integrate hotspots r1 r2 v t).lat = v.lat + stepLat v t := rfl

theorem integrate_lng (hotspots : List Hotspot) (r1 r2 : ℝ) (v : Vessel) (t : Waypoint) :
    (integrate hotspots r1 r2 v t).lng = v.lng + stepLng v t := rfl

theorem integrate_route (hotspots : List Hotspot) (r1 r2 : ℝ) (v : Vessel) (t : Waypoint) :
    (integrate hotspots r1 r2 v t).route =
      takeLast 200 (v.route ++ [{ lat := v.lat + stepLat v t, lng := v.lng + stepLng v t }]) := rfl

theorem integrate_plan (hotspots : List Hotspot) (r1 r2 : ℝ) (v : Vessel) (t : Waypoint) :
    (integrate hotspots r1 r2 v t).plan = some
      (if haversineM (v.lat + stepLat v t) (v.lng + stepLng v t) t.lat t.lng < 5000
        then markFirstIncomplete (planFor hotspots v) else planFor hotspots v) := rfl

theorem integrate_battery (hotspots : List Hotspot) (r1 r2 : ℝ) (v : Vessel) (t : Waypoint) :
    (integrate hotspots r1 r2 v t).battery = max 0 (v.battery - r2 * 0.1) := rfl

theorem integrate_frame (hotspots : List Hotspot) (r1 r2 : ℝ) (v : Vessel) (t : Waypoint) :
    (integrate hotspots r1 r2 v t).id = v.id ∧
    (integrate hotspots r1 r2 v t).name = v.name ∧
    (integrate hotspots r1 r2 v t).type = v.type ∧
    (integrate hotspots r1 r2 v t).status = v.status ∧
    (integrate hotspots r1 r2 v t).speed = v.speed ∧
    (integrate hotspots r1 r2 v t).currentTarget = v.currentTarget :=
  ⟨rfl, rfl, rfl, rfl, rfl, rfl⟩

/-- All fields outside lat/lng/route/plan/plasticCollected/battery are
untouched by one total integrator step (moved or skipped). -/
theorem tickV_frame (hotspots : List Hotspot) (assigned : List String) (r1 r2 : ℝ)
    (v : Vessel) :
    (tickV hotspots assigned r1 r2 v).id = v.id ∧
    (tickV hotspots assigned r1 r2 v).name = v.name ∧
    (tickV hotspots assigned r1 r2 v).type = v.type ∧
    (tickV hotspots assigned r1 r2 v).status = v.status ∧
    (tickV hotspots assigned r1 r2 v).speed = v.speed ∧
    (tickV hotspots assigned r1 r2 v).currentTarget = v.currentTarget := by
  by_cases h : v.status = "active" ∧ v.id ∈ assigned
  · obtain ⟨t, ht⟩ := planFor_find?_isSome hotspots v
    rw [tickV_moved h.1 h.2 ht]
    exact integrate_frame hotspots r1 r2 v t
  · rw [tickV_skip h]
    exact ⟨rfl, rfl, rfl, rfl, rfl, rfl⟩

/-! ### The fleet map and iterated ticks -/

theorem mapRnd_length (f : Nat → Vessel → Vessel) :
    ∀ (i : Nat) (vs : List Vessel), (mapRnd f i vs).length = vs.length := by
  intro i vs
  induction vs generalizing i with
  | nil => rfl
  | cons v vs ih => simp [mapRnd, ih]

theorem mapRnd_getElem? (f : Nat → Vessel → Vessel) :
    ∀ (i j : Nat) (vs : List Vessel), (mapRnd f i vs)[j]? = (vs[j]?).map (f (i + j)) := by
  intro i j vs
  induction vs generalizing i j with
  | nil => simp [mapRnd]
  | cons v vs ih =>
    cases j with
    | zero => simp [mapRnd]
    | succ j =>
      simp only [mapRnd, List.getElem?_cons_succ, ih (i + 1) j]
      have : i + 1 + j = i + (j + 1) := by omega
      rw [this]

theorem tickAll_eq (hotspots : List Hotspot) (assigned : List String)
    (rnd : Nat → ℝ × ℝ) :
    ∀ (i : Nat) (vs : List Vessel),
      tickAll hotspots assigned rnd i vs =
        some (mapRnd (fun j v => tickV hotspots assigned (rnd j).1 (rnd j).2 v) i vs) := by
  intro i vs
  induction vs generalizing i with
  | nil => rfl
  | cons v vs ih =>
    unfold tickAll
    rw [tickVessel_eq_tickV, ih (i + 1)]
    rfl

/-- One full tick always succeeds, only rewrites the vessel list, and sends
the vessel at each index through the integrator with that index's random
draws. -/
theorem update_eq (rnd : Nat → ℝ × ℝ) (s : SimState) :
    updateVesselPositions rnd s = some
      { s with vessels :=
          (mapRnd (fun j v => tickV s.hotspots (activeAssigned s.missions) (rnd j).1 (rnd j).2 v)
            0 s.vessels) } := by
  unfold updateVesselPositions
  rw [tickAll_eq]

/-- Iterated ticks always succeed. -/
theorem iterTicks_isSome (rnd : Nat → Nat → ℝ × ℝ) :
    ∀ (n : Nat) (s : SimState), ∃ s', iterTicks rnd n s = some s' := by
  intro n
  induction n generalizing rnd with
  | zero => exact fun s => ⟨s, rfl⟩
  | succ n ih =>
    intro s
    obtain ⟨s', hs'⟩ := ih (fun k => rnd (k + 1))
      { s with vessels :=
          (mapRnd (fun j v =>
              tickV s.hotspots (activeAssigned s.missions) ((rnd 0 j).1) ((rnd 0 j).2) v)
            0 s.vessels) }
    exact ⟨s', by rw [iterTicks, update_eq]; exact hs'⟩

/-- The workhorse invariant: any reflexive transitive vessel relation that is
preserved by a single integrator step (for randoms satisfying `Q`) relates
each vessel to its descendant after `n` ticks; hotspots and missions are
untouched throughout. -/
theorem iterTicks_rel {Q : ℝ → ℝ → Prop} {R : Vessel → Vessel → Prop}
    (hrefl : ∀ v, R v v) (htrans : ∀ a b c, R a b → R b c → R a c) :
    ∀ (rnd : Nat → Nat → ℝ × ℝ) (n : Nat) (s s' : SimState),
      (∀ i k, Q (rnd i k).1 (rnd i k).2) →
      (∀ r1 r2, Q r1 r2 → ∀ v,
        R v (tickV s.hotspots (activeAssigned s.missions) r1 r2 v)) →
      iterTicks rnd n s = some s' →
      s'.hotspots = s.hotspots ∧ s'.missions = s.missions ∧
      s'.vessels.length = s.vessels.length ∧
      ∀ (j : Nat) (v v' : Vessel),
        s.vessels[j]? = some v → s'.vessels[j]? = some v' → R v v' := by
  intro rnd n
  induction n generalizing rnd with
  | zero =>
    intro s s' _ _ h
    rw [iterTicks] at h
    cases h
    refine ⟨rfl, rfl, rfl, ?_⟩
    intro j v v' hv hv'
    rw [hv] at hv'
    cases hv'
    exact hrefl v
  | succ n ih =>
    intro s s' hQ hstep h
    rw [iterTicks, update_eq] at h
    set s₁ : SimState :=
      { s with vessels :=
          (mapRnd (fun j v =>
              tickV s.hotspots (activeAssigned s.missions) ((rnd 0 j).1) ((rnd 0 j).2) v)
            0 s.vessels) } with hs₁
    obtain ⟨hhot, hmis, hlen, hrel⟩ := ih (fun k => rnd (k + 1)) s₁ s'
      (fun i k => hQ (i + 1) k) (fun r1 r2 hq v => hstep r1 r2 hq v) h
    refine ⟨hhot, hmis, ?_, ?_⟩
    · rw [hlen, hs₁]
      exact mapRnd_length _ 0 s.vessels
    · intro j v v' hv hv'
      have h₁ : s₁.vessels[j]? = some
          (tickV s.hotspots (activeAssigned s.missions) ((rnd 0 j).1) ((rnd 0 j).2) v) := by
        rw [hs₁]
        show (mapRnd _ 0 s.vessels)[j]? = _
        rw [mapRnd_getElem?, hv]
        simp
      exact htrans _ _ _ (hstep _ _ (hQ 0 j) v) (hrel j _ v' h₁ hv')

/-! ### The first incomplete waypoint and its marking -/

/-- A successful `find?` for an incomplete waypoint splits the plan into a
completed prefix, the found target, and a tail; marking rewrites exactly the
target's flag. -/
theorem find?_decomp {l : List Waypoint} {t : Waypoint}
    (h : l.find? (fun p => !p.completed) = some t) :
    ∃ l1 l2, l = l1 ++ t :: l2 ∧ (∀ x ∈ l1, x.completed = true) ∧ t.completed = false ∧
      markFirstIncomplete l = l1 ++ { t with completed := true } :: l2 := by
  induction l with
  | nil => simp at h
  | cons w ws ih =>
    by_cases hw : w.completed
    · rw [List.find?_cons_of_neg _ (by simp [hw])] at h
      obtain ⟨l1, l2, hsplit, hall, hc, hm⟩ := ih h
      refine ⟨w :: l1, l2, by rw [hsplit]; rfl, ?_, hc, ?_⟩
      · intro x hx
        rcases List.mem_cons.1 hx with rfl | hx
        · exact hw
        · exact hall x hx
      · rw [markFirstIncomplete, if_pos hw, hm]
        rfl
    · rw [List.find?_cons_of_pos _ (by simp [hw])] at h
      cases h
      refine ⟨[], ws, rfl, by simp, by simpa using hw, ?_⟩
      rw [markFirstIncomplete, if_neg hw]
      rfl

/-- Marking the first incomplete waypoint leaves every already-completed
waypoint in place (same index, same value). -/
theorem markFirstIncomplete_preserves {l : List Waypoint} {j : Nat} {wp : Waypoint}
    (h : l[j]? = some wp) (hc : wp.completed = true) :
    (markFirstIncomplete l)[j]? = some wp := by
  induction l generalizing j with
  | nil => simp at h
  | cons w ws ih =>
    by_cases hw : w.completed
    · rw [markFirstIncomplete, if_pos hw]
      cases j with
      | zero => simpa using h
      | succ j =>
        rw [List.getElem?_cons_succ] at h ⊢
        exact ih h
    · rw [markFirstIncomplete, if_neg hw]
      cases j with
      | zero =>
        simp only [List.getElem?_cons_zero, Option.some.injEq] at h
        rw [← h] at hc
        exact absurd hc (by simpa using hw)
      | succ j =>
        rw [List.getElem?_cons_succ] at h ⊢
        exact h

/-! ### The trail -/

theorem takeLast_length (n : Nat) (l : List α) :
    (takeLast n l).length = min n l.length := by
  rw [takeLast, List.length_drop]
  omega

theorem takeLast_suffix (n : Nat) (l : List α) : takeLast n l <:+ l :=
  List.drop_suffix _ _

/-! ### Single-step facts feeding the iterated invariants -/

/-- One integrator step never grows the trail beyond 200 entries. -/
theorem tickV_route_le (hotspots : List Hotspot) (assigned : List String) (r1 r2 : ℝ)
    (v : Vessel) (h : v.route.length ≤ 200) :
    (tickV hotspots assigned r1 r2 v).route.length ≤ 200 := by
  by_cases hm : v.status = "active" ∧ v.id ∈ assigned
  · obtain ⟨t, ht⟩ := planFor_find?_isSome hotspots v
    rw [tickV_moved hm.1 hm.2 ht, integrate_route, takeLast_length]
    omega
  · rw [tickV_skip hm]
    exact h

/-- One integrator step keeps the battery in `[0, previous]` when the random
draw is nonnegative. -/
theorem tickV_battery (hotspots : List Hotspot) (assigned : List String) (r1 r2 : ℝ)
    (v : Vessel) (hr : 0 ≤ r2) (hb : 0 ≤ v.battery) :
    0 ≤ (tickV hotspots assigned r1 r2 v).battery ∧
      (tickV hotspots assigned r1 r2 v).battery ≤ v.battery := by
  by_cases hm : v.status = "active" ∧ v.id ∈ assigned
  · obtain ⟨t, ht⟩ := planFor_find?_isSome hotspots v
    rw [tickV_moved hm.1 hm.2 ht, integrate_battery]
    constructor
    · exact le_max_left 0 _
    · refine max_le hb ?_
      have : 0 ≤ r2 * 0.1 := by positivity
      linarith
  · rw [tickV_skip hm]
    exact ⟨hb, le_refl _⟩

/-! ### Trigonometric facts about the bearing and the step -/

theorem atan2_zero_zero : atan2 0 0 = 0 := by
  unfold atan2
  norm_num

theorem atan2_pos_zero {y : ℝ} (hy : 0 < y) : atan2 y 0 = Real.pi / 2 := by
  unfold atan2
  rw [if_neg (lt_irrefl 0), if_neg (lt_irrefl 0), if_pos hy]

theorem toRad_zero : toRad 0 = 0 := by
  rw [toRad]
  ring

/-- The bearing from a point to itself is `atan2 0 0 = 0` (due north), since
both arguments of `atan2` vanish. -/
theorem bearingTo_self (lat lng : ℝ) : bearingTo lat lng lat lng = 0 := by
  unfold bearingTo
  simp only [sub_self, toRad_zero, Real.sin_zero, Real.cos_zero, zero_mul, mul_one]
  have hx : Real.cos (toRad lat) * Real.sin (toRad lat) -
      Real.sin (toRad lat) * Real.cos (toRad lat) = 0 := by ring
  rw [hx, atan2_zero_zero]

theorem stepMeters_pos (speed : ℝ) : 0 < stepMeters speed := by
  rw [stepMeters]
  have : (0.1 : ℝ) ≤ max 0.1 (speed * 0.514444) := le_max_left _ _
  nlinarith

/-- With speed 0 the floor produces `0.1 m/s × 5 s = 0.5 m`. -/
theorem stepMeters_zero : stepMeters 0 = 0.5 := by
  rw [stepMeters]
  norm_num

/-- Toward a target that coincides with the vessel's own position, the step
moves the vessel due north by the full scalar step. -/
theorem stepLat_self {v : Vessel} {t : Waypoint} (hlat : t.lat = v.lat)
    (hlng : t.lng = v.lng) : stepLat v t = stepMeters v.speed / 111000 := by
  rw [stepLat, hlat, hlng, bearingTo_self, Real.cos_zero]
  ring

theorem stepLng_self {v : Vessel} {t : Waypoint} (hlat : t.lat = v.lat)
    (hlng : t.lng = v.lng) : stepLng v t = 0 := by
  rw [stepLng, hlat, hlng, bearingTo_self, Real.sin_zero]
  ring

/-- The step deltas never both vanish (away from the poles): the bearing has
`sin² + cos² = 1`. -/
theorem step_ne_zero (v : Vessel) (t : Waypoint)
    (hcos : Real.cos (jsOr (toRad v.lat) 1e-6) ≠ 0) :
    ¬(stepLat v t = 0 ∧ stepLng v t = 0) := by
  rintro ⟨hlat, hlng⟩
  have hM : stepMeters v.speed ≠ 0 := ne_of_gt (stepMeters_pos v.speed)
  rw [stepLat] at hlat
  rw [stepLng] at hlng
  have hc : Real.cos (bearingTo v.lat v.lng t.lat t.lng) = 0 := by
    have h1 : (1 : ℝ) / 111000 ≠ 0 := by norm_num
    rcases mul_eq_zero.1 hlat with h | h
    · rcases mul_eq_zero.1 h with h' | h'
      · exact h'
      · exact absurd h' hM
    · exact absurd h h1
  have hs : Real.sin (bearingTo v.lat v.lng t.lat t.lng) = 0 := by
    have h2 : (1 : ℝ) / (111000 * Real.cos (jsOr (toRad v.lat) 1e-6)) ≠ 0 := by
      refine one_div_ne_zero ?_
      exact mul_ne_zero (by norm_num) hcos
    rcases mul_eq_zero.1 hlng with h | h
    · rcases mul_eq_zero.1 h with h' | h'
      · exact h'
      · exact absurd h' hM
    · exact absurd h h2
  have := Real.sin_sq_add_cos_sq (bearingTo v.lat v.lng t.lat t.lng)
  rw [hs, hc] at this
  norm_num at this

/-- About 1.5 ⋅ 10⁻⁶ radians north of the equator the longitude scale factor
is well defined: `cos 1e-6 > 0`. -/
theorem cos_jsOr_zero_pos : 0 < Real.cos (jsOr (toRad 0) 1e-6) := by
  rw [toRad_zero, jsOr, if_pos rfl]
  refine Real.cos_pos_of_mem_Ioo ⟨?_, ?_⟩
  · have := Real.pi_gt_three
    norm_num
    linarith
  · have := Real.pi_gt_three
    norm_num
    linarith

/-- Due east on the equator, the bearing evaluates to exactly 90°. -/
theorem bearingTo_equator_east : bearingTo 0 0 0 1 = Real.pi / 2 := by
  unfold bearingTo
  have h1 : toRad (1 - 0) = Real.pi / 180 := by rw [toRad]; ring
  simp only [h1, toRad_zero, Real.sin_zero, Real.cos_zero, mul_one, one_mul, mul_zero,
    zero_mul, sub_zero]
  exact atan2_pos_zero (Real.sin_pos_of_pos_of_lt_pi
    (by have := Real.pi_pos; linarith) (by have := Real.pi_pos; linarith))

/-- The degenerate planner output: with no hotspots the plan is the single
incomplete waypoint at the vessel's own position. -/
theorem planFor_no_hotspots (v : Vessel)
    (hplan : ((v.plan.getD []).filter fun p => !p.completed).length = 0) :
    planFor [] v = [{ lat := v.lat, lng := v.lng, completed := false }] := by
  unfold planFor
  rw [if_pos hplan]
  have hnear : nearestPlan [] v.lat v.lng = [] := by
    unfold nearestPlan
    simp
  rw [hnear]
  rfl

theorem testVessel_in_assigned : testVessel.id ∈ activeAssigned testState.missions := by
  show "vessel-001" ∈ activeAssigned [testMission]
  rw [activeAssigned]
  simp [testMission]

/-! ### Claim theorems -/

/-- C1 (amended): with an empty hotspot set the Navigation Planner does emit
the single degenerate waypoint at the vessel's current position, and no tick
ever fails; but the Motion Integrator does NOT leave the vessel stationary:
the degenerate target makes both `atan2` arguments vanish, the bearing
defaults to 0 (due north), and every tick moves the vessel north by the full
scalar step `max(0.1, speed·0.514444)·5 / 111000` degrees of latitude. -/
theorem C1_degenerate_drifts_north (assigned : List String) (r1 r2 : ℝ) (v : Vessel)
    (hst : v.status = "active") (hmem : v.id ∈ assigned)
    (hplan : ((v.plan.getD []).filter fun p => !p.completed).length = 0) :
    planFor [] v = [{ lat := v.lat, lng := v.lng, completed := false }] ∧
    (∃ w, tickVessel [] assigned r1 r2 v = some w ∧
      w.lat = v.lat + stepMeters v.speed / 111000 ∧ v.lat < w.lat ∧ w.lng = v.lng) ∧
    ∀ (rnd : Nat → Nat → ℝ × ℝ) (n : Nat) (s : SimState),
      ∃ s', iterTicks rnd n s = some s' := by
  have hpf := planFor_no_hotspots v hplan
  refine ⟨hpf, ?_, fun rnd n s => iterTicks_isSome rnd n s⟩
  have hfind : (planFor [] v).find? (fun p => !p.completed) =
      some { lat := v.lat, lng := v.lng, completed := false } := by
    rw [hpf]
    rfl
  refine ⟨integrate [] r1 r2 v { lat := v.lat, lng := v.lng, completed := false },
    tick_moved hst hmem hfind, ?_, ?_, ?_⟩
  · rw [integrate_lat, stepLat_self rfl rfl]
  · rw [integrate_lat, stepLat_self rfl rfl]
    have := stepMeters_pos v.speed
    have h111 : (0 : ℝ) < 111000 := by norm_num
    have : 0 < stepMeters v.speed / 111000 := by positivity
    linarith
  · rw [integrate_lng, stepLng_self rfl rfl]
    ring

/-- C1 (counterexample to the claim as stated): a concrete active assigned
vessel at the origin with an empty hotspot set is NOT left stationary by the
tick — its latitude becomes `1/222000` (0.5 m north). -/
theorem C1_counterexample :
    ∃ s', updateVesselPositions (fun _ => (0, 0)) testState = some s' ∧
      ∃ w, s'.vessels = [w] ∧ w.lat = 1 / 222000 ∧ testVessel.lat = 0 ∧
        w.lat ≠ testVessel.lat := by
  refine ⟨_, update_eq _ testState, ?_⟩
  have hst : testVessel.status = "active" := rfl
  have hplan : ((testVessel.plan.getD []).filter fun p => !p.completed).length = 0 := rfl
  have hpf := planFor_no_hotspots testVessel hplan
  have hfind : (planFor [] testVessel).find? (fun p => !p.completed) =
      some { lat := testVessel.lat, lng := testVessel.lng, completed := false } := by
    rw [hpf]
    rfl
  have htv : tickV testState.hotspots (activeAssigned testState.missions) 0 0 testVessel =
      integrate [] 0 0 testVessel
        { lat := testVessel.lat, lng := testVessel.lng, completed := false } :=
    tickV_moved hst testVessel_in_assigned hfind
  refine ⟨tickV testState.hotspots (activeAssigned testState.missions) 0 0 testVessel,
    ?_, ?_, rfl, ?_⟩
  · rfl
  · show (tickV testState.hotspots (activeAssigned testState.missions) _ _ testVessel).lat = _
    rw [htv, integrate_lat, stepLat_self rfl rfl]
    show (0 : ℝ) + stepMeters testVessel.speed / 111000 = 1 / 222000
    have hsp : testVessel.speed = 0 := rfl
    rw [hsp, stepMeters_zero]
    norm_num
  · show (tickV testState.hotspots (activeAssigned testState.missions) _ _ testVessel).lat ≠ _
    rw [htv, integrate_lat, stepLat_self rfl rfl]
    show (0 : ℝ) + stepMeters testVessel.speed / 111000 ≠ 0
    have hsp : testVessel.speed = 0 := rfl
    rw [hsp, stepMeters_zero]
    norm_num

/-- Witness for `C1_degenerate_drifts_north` at the concrete origin vessel. -/
theorem C1_degenerate_drifts_north_witness :
    testVessel.status = "active" ∧
    (∃ w, tickVessel [] ["vessel-001"] 0 0 testVessel = some w ∧
      w.lat = testVessel.lat + stepMeters testVessel.speed / 111000 ∧
      testVessel.lat < w.lat ∧ w.lng = testVessel.lng) := by
  have h := C1_degenerate_drifts_north ["vessel-001"] 0 0 testVessel rfl
    (List.mem_singleton.2 rfl) rfl
  exact ⟨rfl, h.2.1⟩

/-- C8: due east on the equator the computed bearing is exactly 90° and the
step moves longitude strictly east with zero latitude change. -/
theorem C8_equator_bearing :
    bearingTo 0 0 0 1 = Real.pi / 2 ∧
    ∃ w, tickVessel [eastHotspot] ["vessel-001"] 0 0 eastVessel = some w ∧
      w.lat = 0 ∧ 0 < w.lng := by
  refine ⟨bearingTo_equator_east, ?_⟩
  have hpf : planFor [eastHotspot] eastVessel = [{ lat := 0, lng := 1, completed := false }] := by
    simp only [planFor, nearestPlan, eastVessel, eastHotspot, Option.getD_none,
      List.filter_nil, List.length_nil, if_pos, List.map_cons, List.map_nil,
      List.mergeSort_singleton, List.take_succ_cons, List.take_nil, List.length_cons,
      Nat.zero_lt_one, if_true]
    norm_num
  have hfind : (planFor [eastHotspot] eastVessel).find? (fun p => !p.completed) =
      some { lat := 0, lng := 1, completed := false } := by
    rw [hpf]
    rfl
  refine ⟨_, tick_moved rfl (List.mem_singleton.2 rfl) hfind, ?_, ?_⟩
  · rw [integrate_lat]
    show (0 : ℝ) + stepLat eastVessel { lat := 0, lng := 1, completed := false } = 0
    rw [stepLat]
    show (0 : ℝ) + Real.cos (bearingTo 0 0 0 1) * stepMeters eastVessel.speed * (1 / 111000) = 0
    rw [bearingTo_equator_east, Real.cos_pi_div_two]
    ring
  · rw [integrate_lng]
    show (0 : ℝ) < 0 + stepLng eastVessel { lat := 0, lng := 1, completed := false }
    rw [stepLng]
    show (0 : ℝ) < 0 + Real.sin (bearingTo 0 0 0 1) * stepMeters eastVessel.speed *
      (1 / (111000 * Real.cos (jsOr (toRad 0) 1e-6)))
    rw [bearingTo_equator_east, Real.sin_pi_div_two]
    have h1 := stepMeters_pos eastVessel.speed
    have h2 := cos_jsOr_zero_pos
    have h3 : (0 : ℝ) < 1 / (111000 * Real.cos (jsOr (toRad 0) 1e-6)) := by positivity
    nlinarith

/-- C10: one tick only rewrites the vessel list, and within each vessel only
lat, lng, route, plan, plasticCollected and battery; id, name, type, status,
speed and currentTarget are unchanged, and the hotspot and mission lists are
untouched. -/
theorem C10_frame (rnd : Nat → ℝ × ℝ) (s : SimState) :
    ∃ s', updateVesselPositions rnd s = some s' ∧
      s'.hotspots = s.hotspots ∧ s'.missions = s.missions ∧
      s'.vessels.length = s.vessels.length ∧
      ∀ (j : Nat) (v v' : Vessel), s.vessels[j]? = some v → s'.vessels[j]? = some v' →
        v'.id = v.id ∧ v'.name = v.name ∧ v'.type = v.type ∧ v'.status = v.status ∧
        v'.speed = v.speed ∧ v'.currentTarget = v.currentTarget := by
  refine ⟨_, update_eq rnd s, rfl, rfl, mapRnd_length _ 0 _, ?_⟩
  intro j v v' hv hv'
  have hv'' : (mapRnd
      (fun j v => tickV s.hotspots (activeAssigned s.missions) (rnd j).1 (rnd j).2 v)
      0 s.vessels)[j]? = some v' := hv'
  rw [mapRnd_getElem?, hv] at hv''
  simp only [Option.map_some', Option.some.injEq] at hv''
  rw [← hv'']
  have := tickV_frame s.hotspots (activeAssigned s.missions)
    ((rnd (0 + j)).1) ((rnd (0 + j)).2) v
  exact this

/-- C4: a vessel that is not active or not referenced by any active mission
is completely unchanged (position, plan, trail and every other field) after
any number of ticks. -/
theorem C4_no_mission_noop (rnd : Nat → Nat → ℝ × ℝ) (n : Nat) (s s' : SimState)
    (j : Nat) (v v' : Vessel)
    (hnm : ¬(v.status = "active" ∧ v.id ∈ activeAssigned s.missions))
    (hj : s.vessels[j]? = some v) (h : iterTicks rnd n s = some s')
    (hj' : s'.vessels[j]? = some v') : v' = v := by
  have hrel := iterTicks_rel (Q := fun _ _ => True)
    (R := fun a b => ¬(a.status = "active" ∧ a.id ∈ activeAssigned s.missions) → b = a)
    (fun v _ => rfl)
    (fun a b c hab hbc ha => by
      have hba : b = a := hab ha
      rw [hba] at hbc
      exact hbc ha)
    rnd n s s' (fun _ _ => trivial)
    (fun r1 r2 _ v hv => tickV_skip hv) h
  exact hrel.2.2.2 j v v' hj hj' hnm

/-- C2: with a non-empty hotspot set, a freshly generated plan has at most 3
waypoints, each drawn (coordinates and all) from the hotspot set, sorted
ascending by planar `Math.hypot` distance from the planning position, every
one with `completed = false`; and the tick's plan regeneration uses exactly
this planner output (which, being a pure function, is deterministic). -/
theorem C2_plan_bound (hotspots : List Hotspot) (clat clng : ℝ) (hne : hotspots ≠ []) :
    (nearestPlan hotspots clat clng).length ≤ 3 ∧
    (∀ w ∈ nearestPlan hotspots clat clng, w.completed = false ∧
      ∃ h ∈ hotspots, w.lat = h.lat ∧ w.lng = h.lng) ∧
    (nearestPlan hotspots clat clng).Pairwise
      (fun a b => hypot (a.lat - clat) (a.lng - clng) ≤ hypot (b.lat - clat) (b.lng - clng)) ∧
    ∀ v : Vessel, v.lat = clat → v.lng = clng →
      ((v.plan.getD []).filter fun p => !p.completed).length = 0 →
      planFor hotspots v = nearestPlan hotspots clat clng := by
  refine ⟨?_, fun w hw => nearestPlan_mem hw, nearestPlan_sorted hotspots clat clng, ?_⟩
  · rw [nearestPlan_length]
    exact min_le_left 3 _
  · intro v hla hln hplan
    unfold planFor
    rw [if_pos hplan, hla, hln, if_pos ?_]
    rw [nearestPlan_length]
    have : 0 < hotspots.length := List.length_pos.2 hne
    omega

/-- Witness for `C2_plan_bound` at a one-hotspot set. -/
theorem C2_plan_bound_witness :
    ([eastHotspot] : List Hotspot) ≠ [] ∧ (nearestPlan [eastHotspot] 0 0).length ≤ 3 :=
  ⟨by simp, (C2_plan_bound [eastHotspot] 0 0 (by simp)).1⟩

/-- C3: trails never exceed 200 points after any number of ticks (given the
seed respects the bound), and each moving tick appends the new position at
the tail and keeps exactly the most recent `min (len+1) 200` entries, in
order (the new trail is a suffix of `old ++ [new]`). -/
theorem C3_trail_bound (rnd : Nat → Nat → ℝ × ℝ) (n : Nat) (s s' : SimState)
    (hinit : ∀ v ∈ s.vessels, v.route.length ≤ 200)
    (h : iterTicks rnd n s = some s') :
    (∀ v' ∈ s'.vessels, v'.route.length ≤ 200) ∧
    ∀ (hotspots : List Hotspot) (assigned : List String) (r1 r2 : ℝ)
      (v w : Vessel) (t : Waypoint),
      v.status = "active" → v.id ∈ assigned →
      (planFor hotspots v).find? (fun p => !p.completed) = some t →
      tickVessel hotspots assigned r1 r2 v = some w →
      w.route = takeLast 200 (v.route ++ [{ lat := w.lat, lng := w.lng }]) ∧
      w.route.length = min (v.route.length + 1) 200 ∧
      w.route <:+ (v.route ++ [{ lat := w.lat, lng := w.lng }]) := by
  constructor
  · have hrel := iterTicks_rel (Q := fun _ _ => True)
      (R := fun a b => a.route.length ≤ 200 → b.route.length ≤ 200)
      (fun v h => h) (fun a b c hab hbc ha => hbc (hab ha))
      rnd n s s' (fun _ _ => trivial)
      (fun r1 r2 _ v hv => tickV_route_le s.hotspots (activeAssigned s.missions) r1 r2 v hv) h
    intro v' hv'
    obtain ⟨j, hj'⟩ := List.mem_iff_getElem?.1 hv'
    have hjlt : j < s.vessels.length := by
      obtain ⟨hlt, _⟩ := List.getElem?_eq_some.1 hj'
      rw [← hrel.2.2.1]
      exact hlt
    obtain ⟨v, hv⟩ : ∃ v, s.vessels[j]? = some v := by
      refine ⟨s.vessels[j], ?_⟩
      rw [List.getElem?_eq_some]
      exact ⟨hjlt, rfl⟩
    exact hrel.2.2.2 j v v' hv hj' (hinit v (List.getElem?_mem hv))
  · intro hotspots assigned r1 r2 v w t hst hmem hfind hw
    rw [tick_moved hst hmem hfind] at hw
    cases hw
    have hlat := integrate_lat hotspots r1 r2 v t
    have hlng := integrate_lng hotspots r1 r2 v t
    refine ⟨?_, ?_, ?_⟩
    · rw [integrate_route, hlat, hlng]
    · rw [integrate_route, takeLast_length, List.length_append, List.length_singleton]
      omega
    · rw [integrate_route, hlat, hlng]
      exact takeLast_suffix 200 _

/-- Witness for `C3_trail_bound` at the concrete one-vessel store. -/
theorem C3_trail_bound_witness :
    (∀ v ∈ testState.vessels, v.route.length ≤ 200) ∧
    (∀ v' ∈ testState.vessels, v'.route.length ≤ 200) := by
  have hinit : ∀ v ∈ testState.vessels, v.route.length ≤ 200 := by
    intro v hv
    rw [show testState.vessels = [testVessel] from rfl, List.mem_singleton] at hv
    rw [hv]
    show (List.length []) ≤ 200
    norm_num
  exact ⟨hinit,
    (C3_trail_bound (fun _ _ => (0, 0)) 0 testState testState hinit rfl).1⟩

/-- C5: on a moving tick the plan splits at the first incomplete waypoint
`t` (the target), and `t` ends up marked `completed = true` exactly when the
haversine distance (Earth radius 6,371,000 m) from the vessel's NEW,
post-step position to `t` is strictly below 5,000 m. -/
theorem C5_arrival_haversine (hotspots : List Hotspot) (assigned : List String)
    (r1 r2 : ℝ) (v : Vessel) (t : Waypoint)
    (hst : v.status = "active") (hmem : v.id ∈ assigned)
    (hfind : (planFor hotspots v).find? (fun p => !p.completed) = some t) :
    ∃ w, tickVessel hotspots assigned r1 r2 v = some w ∧
      w.lat = v.lat + stepLat v t ∧ w.lng = v.lng + stepLng v t ∧
      t.completed = false ∧
      ∃ l1 l2, planFor hotspots v = l1 ++ t :: l2 ∧ (∀ x ∈ l1, x.completed = true) ∧
        w.plan = some (l1 ++
          { t with completed := decide (haversineM w.lat w.lng t.lat t.lng < 5000) } :: l2) := by
  obtain ⟨l1, l2, hsplit, hall, hc, hmark⟩ := find?_decomp hfind
  refine ⟨integrate hotspots r1 r2 v t, tick_moved hst hmem hfind,
    integrate_lat hotspots r1 r2 v t, integrate_lng hotspots r1 r2 v t, hc,
    l1, l2, hsplit, hall, ?_⟩
  rw [integrate_plan, integrate_lat, integrate_lng]
  by_cases hd : haversineM (v.lat + stepLat v t) (v.lng + stepLng v t) t.lat t.lng < 5000
  · rw [if_pos hd, hmark, decide_eq_true hd]
  · rw [if_neg hd, hsplit, decide_eq_false hd]
    have ht : { t with completed := false } = t := by
      rw [← hc]
    rw [ht]

/-- Witness for `C5_arrival_haversine` at the concrete origin vessel. -/
theorem C5_arrival_haversine_witness :
    (planFor [] testVessel).find? (fun p => !p.completed) =
      some { lat := 0, lng := 0, completed := false } ∧
    ∃ w, tickVessel [] ["vessel-001"] 0 0 testVessel = some w := by
  have hfind : (planFor [] testVessel).find? (fun p => !p.completed) =
      some { lat := 0, lng := 0, completed := false } := by
    rw [planFor_no_hotspots testVessel rfl]
    rfl
  obtain ⟨w, hw, _⟩ := C5_arrival_haversine [] ["vessel-001"] 0 0 testVessel
    { lat := 0, lng := 0, completed := false } rfl (List.mem_singleton.2 rfl) hfind
  exact ⟨hfind, w, hw⟩

/-- C6: on a tick whose retained plan still has an incomplete waypoint, the
target is the first incomplete waypoint in plan order (everything before it
is completed, the target is not), and every waypoint already marked
`completed = true` is still present, unchanged, at the same index after the
tick. -/
theorem C6_arrival_idempotent (hotspots : List Hotspot) (assigned : List String)
    (r1 r2 : ℝ) (v : Vessel)
    (hst : v.status = "active") (hmem : v.id ∈ assigned)
    (hinc : ((v.plan.getD []).filter fun p => !p.completed).length ≠ 0) :
    ∃ t, planFor hotspots v = v.plan.getD [] ∧
      (v.plan.getD []).find? (fun p => !p.completed) = some t ∧ t.completed = false ∧
      tickVessel hotspots assigned r1 r2 v = some (integrate hotspots r1 r2 v t) ∧
      (∃ l1 l2, v.plan.getD [] = l1 ++ t :: l2 ∧ ∀ x ∈ l1, x.completed = true) ∧
      ∀ w, tickVessel hotspots assigned r1 r2 v = some w →
        ∀ (j : Nat) (wp : Waypoint), (v.plan.getD [])[j]? = some wp → wp.completed = true →
          (w.plan.getD [])[j]? = some wp := by
  have hpf : planFor hotspots v = v.plan.getD [] := by
    unfold planFor
    rw [if_neg hinc]
  obtain ⟨t, hfind⟩ := planFor_find?_isSome hotspots v
  have hfind' : (v.plan.getD []).find? (fun p => !p.completed) = some t := by
    rw [← hpf]
    exact hfind
  have hc : t.completed = false := by
    have := List.find?_some hfind'
    simpa using this
  obtain ⟨l1, l2, hsplit, hall, _, _⟩ := find?_decomp hfind'
  refine ⟨t, hpf, hfind', hc, tick_moved hst hmem hfind, ⟨l1, l2, hsplit, hall⟩, ?_⟩
  intro w hw j wp hj hwp
  rw [tick_moved hst hmem hfind] at hw
  cases hw
  rw [integrate_plan, hpf]
  by_cases hd : haversineM (v.lat + stepLat v t) (v.lng + stepLng v t) t.lat t.lng < 5000
  · rw [if_pos hd]
    show (markFirstIncomplete (v.plan.getD []))[j]? = some wp
    exact markFirstIncomplete_preserves hj hwp
  · rw [if_neg hd]
    exact hj

/-- Witness for `C6_arrival_idempotent` at a vessel with a stored incomplete
plan. -/
theorem C6_arrival_idempotent_witness :
    ((plannedVessel.plan.getD []).filter fun p => !p.completed).length ≠ 0 ∧
    ∃ t, (plannedVessel.plan.getD []).find? (fun p => !p.completed) = some t ∧
      t.completed = false := by
  have hinc : ((plannedVessel.plan.getD []).filter fun p => !p.completed).length ≠ 0 := by
    show (1 : Nat) ≠ 0
    norm_num
  obtain ⟨t, _, hfind, hc, _⟩ := C6_arrival_idempotent [] ["vessel-001"] 0 0 plannedVessel
    rfl (List.mem_singleton.2 rfl) hinc
  exact ⟨hinc, t, hfind, hc⟩

/-- C7: the scalar step distance per tick is `max(0.1, speed·0.514444)·5`
meters (0.5 m for a speed-0 vessel, by the 0.1 m/s floor), and away from the
poles a moved vessel — even at speed 0 — never keeps exactly its previous
position. -/
theorem C7_speed_floor (hotspots : List Hotspot) (assigned : List String)
    (r1 r2 : ℝ) (v : Vessel) (t : Waypoint)
    (hst : v.status = "active") (hmem : v.id ∈ assigned)
    (hfind : (planFor hotspots v).find? (fun p => !p.completed) = some t)
    (hcos : Real.cos (jsOr (toRad v.lat) 1e-6) ≠ 0) :
    stepMeters v.speed = max 0.1 (v.speed * 0.514444) * 5 ∧
    (v.speed = 0 → stepMeters v.speed = 0.5) ∧
    ∃ w, tickVessel hotspots assigned r1 r2 v = some w ∧
      w.lat = v.lat + Real.cos (bearingTo v.lat v.lng t.lat t.lng) *
        stepMeters v.speed * (1 / 111000) ∧
      w.lng = v.lng + Real.sin (bearingTo v.lat v.lng t.lat t.lng) *
        stepMeters v.speed * (1 / (111000 * Real.cos (jsOr (toRad v.lat) 1e-6))) ∧
      ¬(w.lat = v.lat ∧ w.lng = v.lng) := by
  refine ⟨rfl, ?_, integrate hotspots r1 r2 v t, tick_moved hst hmem hfind,
    integrate_lat hotspots r1 r2 v t, integrate_lng hotspots r1 r2 v t, ?_⟩
  · intro h
    rw [h, stepMeters_zero]
  · rintro ⟨hlat, hlng⟩
    rw [integrate_lat] at hlat
    rw [integrate_lng] at hlng
    refine step_ne_zero v t hcos ⟨?_, ?_⟩
    · linarith
    · linarith

/-- Witness for `C7_speed_floor` at the concrete origin vessel. -/
theorem C7_speed_floor_witness :
    Real.cos (jsOr (toRad testVessel.lat) 1e-6) ≠ 0 ∧
    stepMeters testVessel.speed = max 0.1 (testVessel.speed * 0.514444) * 5 := by
  have hfind : (planFor [] testVessel).find? (fun p => !p.completed) =
      some { lat := 0, lng := 0, completed := false } := by
    rw [planFor_no_hotspots testVessel rfl]
    rfl
  have hcos : Real.cos (jsOr (toRad testVessel.lat) 1e-6) ≠ 0 :=
    ne_of_gt cos_jsOr_zero_pos
  exact ⟨hcos, (C7_speed_floor [] ["vessel-001"] 0 0 testVessel
    { lat := 0, lng := 0, completed := false } rfl (List.mem_singleton.2 rfl)
    hfind hcos).1⟩

/-- C9: with nonnegative random draws (as `Math.random()` yields), the
battery of every vessel stays in `[0, initial]` across any number of ticks:
nonnegative and monotonically non-increasing. -/
theorem C9_battery (rnd : Nat → Nat → ℝ × ℝ) (n : Nat) (s s' : SimState)
    (hrand : ∀ i k, 0 ≤ (rnd i k).2)
    (hinit : ∀ v ∈ s.vessels, 0 ≤ v.battery)
    (h : iterTicks rnd n s = some s') :
    ∀ (j : Nat) (v v' : Vessel), s.vessels[j]? = some v → s'.vessels[j]? = some v' →
      0 ≤ v'.battery ∧ v'.battery ≤ v.battery := by
  have hrel := iterTicks_rel (Q := fun _ r2 => 0 ≤ r2)
    (R := fun a b => 0 ≤ a.battery → (0 ≤ b.battery ∧ b.battery ≤ a.battery))
    (fun v h => ⟨h, le_refl _⟩)
    (fun a b c hab hbc ha => by
      obtain ⟨hb0, hba⟩ := hab ha
      obtain ⟨hc0, hcb⟩ := hbc hb0
      exact ⟨hc0, le_trans hcb hba⟩)
    rnd n s s' (fun i k => hrand i k)
    (fun r1 r2 hq v hv =>
      tickV_battery s.hotspots (activeAssigned s.missions) r1 r2 v hq hv) h
  intro j v v' hv hv'
  exact hrel.2.2.2 j v v' hv hv' (hinit v (List.getElem?_mem hv))

/-- Witness for `C9_battery` at the concrete one-vessel store. -/
theorem C9_battery_witness :
    (∀ i k, (0 : ℝ) ≤ ((fun (_ _ : Nat) => ((0 : ℝ), (0 : ℝ))) i k).2) ∧
    (∀ v ∈ testState.vessels, 0 ≤ v.battery) ∧
    ∀ v', testState.vessels[0]? = some v' → 0 ≤ v'.battery ∧ v'.battery ≤ v'.battery := by
  have hrand : ∀ i k, (0 : ℝ) ≤ ((fun (_ _ : Nat) => ((0 : ℝ), (0 : ℝ))) i k).2 :=
    fun _ _ => le_refl 0
  have hinit : ∀ v ∈ testState.vessels, 0 ≤ v.battery := by
    intro v hv
    rw [show testState.vessels = [testVessel] from rfl, List.mem_singleton] at hv
    rw [hv]
    show (0 : ℝ) ≤ 87
    norm_num
  refine ⟨hrand, hinit, ?_⟩
  intro v' hv'
  exact C9_battery (fun _ _ => (0, 0)) 0 testState testState hrand hinit rfl 0 v' v' hv' hv'

/-- Witness for `C4_no_mission_noop`: one tick on the idle unassigned vessel. -/
theorem C4_no_mission_noop_witness :
    iterTicks (fun _ _ => ((0 : ℝ), (0 : ℝ))) 1 idleState = some idleState ∧
    idleVessel = idleVessel := by
  have hnm : ¬(idleVessel.status = "active" ∧
      idleVessel.id ∈ activeAssigned idleState.missions) := by
    rintro ⟨hst, _⟩
    exact absurd hst (by decide)
  have hskip : tickV idleState.hotspots (activeAssigned idleState.missions)
      ((0 : ℝ)) ((0 : ℝ)) idleVessel = idleVessel := tickV_skip hnm
  have hiter : iterTicks (fun _ _ => ((0 : ℝ), (0 : ℝ))) 1 idleState = some idleState := by
    rw [iterTicks, update_eq]
    show iterTicks _ 0 _ = _
    rw [iterTicks]
    show some { idleState with vessels :=
      [tickV idleState.hotspots (activeAssigned idleState.missions) 0 0 idleVessel] } = _
    rw [hskip]
    rfl
  exact ⟨hiter, C4_no_mission_noop (fun _ _ => (0, 0)) 1 idleState idleState 0
    idleVessel idleVessel hnm rfl hiter rfl⟩

end OceanSentinel
